import Mathlib

/-!
Shallow embedding of the goal lifecycle and revalidation engine of the
weigh-point application: the completion predicate and Detector inlined in
useCreateEntry (src/hooks/useEntries.ts), the Revalidator
(src/lib/goalRevalidation.ts), and the store operations they invoke
(src/lib/api.ts).

Modelling conventions: identifiers (UUID strings) and timestamps (ISO
strings, compared in the source through Date values and through string
equality on canonical representations) are natural numbers; weights
(decimal JS numbers, only ever compared) are rationals; rows of the
wp_entries / wp_goals tables are records in lists; the PostgREST row
updates keyed by id and user_id are mapped updates over those lists; the
stable JavaScript Array.sort and the database ORDER BY are modelled by a
stable insertion sort; supabase read and write errors are injected through
an explicit failure oracle.
-/

inductive GoalStatus where
  | active
  | completed
deriving DecidableEq, Repr

structure Entry where
  id : Nat
  user_id : Nat
  weight : Rat
  recorded_at : Nat
  created_at : Nat
deriving DecidableEq, Repr

structure Goal where
  id : Nat
  user_id : Nat
  start_weight : Rat
  target_weight : Rat
  status : GoalStatus
  completed_at : Option Nat
  completed_entry_id : Option Nat
  created_at : Nat
deriving DecidableEq, Repr

/-- Persisted state: the wp_entries and wp_goals tables. -/
structure Store where
  entries : List Entry
  goals : List Goal
deriving DecidableEq, Repr

/-- Detector completion predicate, inlined in useCreateEntry.onSuccess
(src/hooks/useEntries.ts lines 120-123): isLossGoal decides the direction,
then the entry weight is compared against target_weight. -/
def isGoalAchieved (activeGoal : Goal) (w : Rat) : Bool :=
  if activeGoal.start_weight > activeGoal.target_weight
  then decide (w ≤ activeGoal.target_weight)
  else decide (w ≥ activeGoal.target_weight)

/-- Revalidator completion predicate, inlined in the eligibility filter of
revalidateSingleGoal (src/lib/goalRevalidation.ts lines 111-117); its body
is identical to the Detector copy. -/
def meetsGoal (goal : Goal) (w : Rat) : Bool :=
  if goal.start_weight > goal.target_weight
  then decide (w ≤ goal.target_weight)
  else decide (w ≥ goal.target_weight)

/-- Goal-table writes issued by the core: api.completeGoal,
api.revertGoalToActive and api.updateGoalCompletion (src/lib/api.ts),
each carrying the user id and goal id used in the eq filters of the
update. -/
inductive GoalWrite where
  | complete (userId goalId entryId completedAt : Nat)
  | revert (userId goalId : Nat)
  | updateCompletion (userId goalId entryId completedAt : Nat)
deriving DecidableEq, Repr

def goalWriteGoalId : GoalWrite → Nat
  | GoalWrite.complete _ gid _ _ => gid
  | GoalWrite.revert _ gid => gid
  | GoalWrite.updateCompletion _ gid _ _ => gid

def goalWriteUserId : GoalWrite → Nat
  | GoalWrite.complete uid _ _ _ => uid
  | GoalWrite.revert uid _ => uid
  | GoalWrite.updateCompletion uid _ _ _ => uid

/-- Effect of one goal write on one goals row: api.completeGoal and
api.updateGoalCompletion set status completed with the given completion
fields, api.revertGoalToActive sets status active and clears them; a row
is touched exactly when both its id and its user_id match the eq filters
of the update. -/
def updOne (w : GoalWrite) (g : Goal) : Goal :=
  match w with
  | GoalWrite.complete uid gid eid t =>
      if g.id = gid ∧ g.user_id = uid then
        { g with status := GoalStatus.completed, completed_at := some t,
                 completed_entry_id := some eid }
      else g
  | GoalWrite.revert uid gid =>
      if g.id = gid ∧ g.user_id = uid then
        { g with status := GoalStatus.active, completed_at := none,
                 completed_entry_id := none }
      else g
  | GoalWrite.updateCompletion uid gid eid t =>
      if g.id = gid ∧ g.user_id = uid then
        { g with status := GoalStatus.completed, completed_at := some t,
                 completed_entry_id := some eid }
      else g

def applyGoalWrite (s : Store) (w : GoalWrite) : Store :=
  { s with goals := s.goals.map (updOne w) }

/-- Input of api.createEntry: the weight and the optional user supplied
recorded_at. -/
structure CreateEntryInput where
  weight : Rat
  recorded_at : Option Nat
deriving DecidableEq, Repr

/-- api.createEntry (src/lib/api.ts lines 139-148): inserts the entry with
recorded_at defaulting to the current wall clock when absent, and
created_at set by the database to the current wall clock. -/
def createEntry (now : Nat) (userId : Nat) (newId : Nat) (inp : CreateEntryInput) : Entry :=
  { id := newId, user_id := userId, weight := inp.weight,
    recorded_at := inp.recorded_at.getD now, created_at := now }

/-- Goal Completion Detector: the onSuccess handler of useCreateEntry
(src/hooks/useEntries.ts lines 109-133), returning the list of goal
writes it issues through completeGoal.mutate. No active goal or a
non-positive start_weight (logged as an invalid goal state) issues
nothing; otherwise a single completion write is issued exactly when the
new entry achieves the goal, carrying the new entry id and its
recorded_at. -/
def createEntryOnSuccess (activeGoal : Option Goal) (newEntry : Entry) : List GoalWrite :=
  match activeGoal with
  | none => []
  | some goal =>
      if goal.start_weight ≤ 0 then []
      else if isGoalAchieved goal newEntry.weight then
        [GoalWrite.complete goal.user_id goal.id newEntry.id newEntry.recorded_at]
      else []

/-- Ascending recorded_at comparator of the revalidation sort
(src/lib/goalRevalidation.ts lines 125-128). -/
def entryLe (a b : Entry) : Prop := a.recorded_at ≤ b.recorded_at

instance : DecidableRel entryLe :=
  fun a b => inferInstanceAs (Decidable (a.recorded_at ≤ b.recorded_at))

instance : IsTotal Entry entryLe := ⟨fun a b => Nat.le_total a.recorded_at b.recorded_at⟩

instance : IsTrans Entry entryLe := ⟨fun _ _ _ h h2 => Nat.le_trans h h2⟩

/-- Descending recorded_at order used by api.getEntries. -/
def entryDescLe (a b : Entry) : Prop := b.recorded_at ≤ a.recorded_at

instance : DecidableRel entryDescLe :=
  fun a b => inferInstanceAs (Decidable (b.recorded_at ≤ a.recorded_at))

/-- api.getEntries with default offset 0 (src/lib/api.ts lines 87-111):
the entries of the user, ordered by recorded_at descending, limited to
the first limit rows by the range clause. -/
def getEntries (s : Store) (userId : Nat) (limit : Nat) : List Entry :=
  (List.insertionSort entryDescLe
    (s.entries.filter (fun e => decide (e.user_id = userId)))).take limit

/-- Descending completed_at order used by api.getCompletedGoals; completed
rows always carry a completed_at, a missing one is ordered as 0. -/
def goalDescLe (a b : Goal) : Prop := b.completed_at.getD 0 ≤ a.completed_at.getD 0

instance : DecidableRel goalDescLe :=
  fun a b => inferInstanceAs (Decidable (b.completed_at.getD 0 ≤ a.completed_at.getD 0))

/-- api.getCompletedGoals (src/lib/api.ts lines 175-186): the goals of the
user with status completed, ordered by completed_at descending. -/
def getCompletedGoals (s : Store) (userId : Nat) : List Goal :=
  List.insertionSort goalDescLe
    (s.goals.filter (fun g =>
      decide (g.user_id = userId) && decide (g.status = GoalStatus.completed)))

/-- Eligibility filter of revalidateSingleGoal
(src/lib/goalRevalidation.ts lines 93-118): the entry whose id equals
goal.completed_entry_id is checked through the modified entry values (and
contributes nothing when the entry was deleted); the checked entry must
not be recorded before goal.created_at and must meet the goal. -/
def eligibleCheck (goal : Goal) (modifiedEntry : Option Entry) (entry : Entry) : Bool :=
  match (if goal.completed_entry_id = some entry.id then modifiedEntry else some entry) with
  | none => false
  | some e =>
      if e.recorded_at < goal.created_at then false
      else meetsGoal goal e.weight

def eligibleEntries (goal : Goal) (allEntries : List Entry) (modifiedEntry : Option Entry) :
    List Entry :=
  allEntries.filter (eligibleCheck goal modifiedEntry)

/-- Decision of revalidateSingleGoal (src/lib/goalRevalidation.ts lines
86-139): an empty eligible set reverts the goal to active; otherwise the
eligible entries are sorted by recorded_at ascending (matching on the
sorted list is equivalent to the length check of the source because the
sort preserves length) and the completion details are rewritten to the
earliest one exactly when they differ from the stored fields. -/
def revalidateSingleGoal (userId : Nat) (goal : Goal) (allEntries : List Entry)
    (modifiedEntry : Option Entry) : Option GoalWrite :=
  match List.insertionSort entryLe (eligibleEntries goal allEntries modifiedEntry) with
  | [] => some (GoalWrite.revert userId goal.id)
  | earliest :: _ =>
      if goal.completed_entry_id ≠ some earliest.id ∨
         goal.completed_at ≠ some earliest.recorded_at
      then some (GoalWrite.updateCompletion userId goal.id earliest.id earliest.recorded_at)
      else none

/-- Failure oracle for the store calls of one revalidation pass: an error
returned or thrown by the supabase client is modelled by the matching
flag being true, write failures keyed by the goal id of the write. -/
structure Failures where
  completedGoalsReadFails : Bool
  entriesReadFails : Bool
  revertWriteFails : Nat → Bool
  updateWriteFails : Nat → Bool

def noFailures : Failures :=
  { completedGoalsReadFails := false, entriesReadFails := false,
    revertWriteFails := fun _ => false, updateWriteFails := fun _ => false }

def writeFails (f : Failures) : GoalWrite → Bool
  | GoalWrite.revert _ gid => f.revertWriteFails gid
  | GoalWrite.updateCompletion _ gid _ _ => f.updateWriteFails gid
  | GoalWrite.complete _ _ _ _ => false

/-- Loop body of revalidateGoals over one affected goal: the decision of
revalidateSingleGoal issues at most one write call; a failing write is
caught and logged inside the revertGoalToActive / updateGoalCompletion
wrappers (src/lib/goalRevalidation.ts lines 144-179) and leaves the store
unchanged. The counter counts issued write calls. -/
def stepPair (f : Failures) (userId : Nat) (entries : List Entry) (modifiedEntry : Option Entry)
    (acc : Store × Nat) (g : Goal) : Store × Nat :=
  match revalidateSingleGoal userId g entries modifiedEntry with
  | none => acc
  | some w => (if writeFails f w then acc.1 else applyGoalWrite acc.1 w, acc.2 + 1)

def revalProcess (f : Failures) (userId : Nat) (entries : List Entry)
    (modifiedEntry : Option Entry) (affected : List Goal) (s : Store) : Store × Nat :=
  affected.foldl (stepPair f userId entries modifiedEntry) (s, 0)

/-- Goals completed by the affected entry: the filter of revalidateGoals
(src/lib/goalRevalidation.ts lines 44-46) over the completed goals read. -/
def affectedGoalsOf (s : Store) (userId affectedEntryId : Nat) : List Goal :=
  (getCompletedGoals s userId).filter
    (fun g => decide (g.completed_entry_id = some affectedEntryId))

/-- revalidateGoals (src/lib/goalRevalidation.ts lines 26-76) run against
the store: a failed completed-goals read logs and returns with no write;
with no goal completed by the affected entry it returns immediately; a
failed entries read logs and returns with no write; otherwise each
affected goal is revalidated in order against the single entries snapshot
read with limit 1000. The outer try/catch swallows every error, so the
run always returns a store; the second component counts issued write
calls. -/
def revalidateGoalsRun (f : Failures) (s : Store) (userId affectedEntryId : Nat)
    (modifiedEntry : Option Entry) : Store × Nat :=
  if f.completedGoalsReadFails then (s, 0)
  else
    let affectedGoals := affectedGoalsOf s userId affectedEntryId
    if affectedGoals.isEmpty then (s, 0)
    else if f.entriesReadFails then (s, 0)
    else revalProcess f userId (getEntries s userId 1000) modifiedEntry affectedGoals s

/-- One loop iteration of revalidateGoals viewed as its effect on a single
goals row of the store. -/
def stepUpd (f : Failures) (userId : Nat) (entries : List Entry) (me : Option Entry)
    (a : Goal) (g : Goal) : Goal :=
  match revalidateSingleGoal userId a entries me with
  | none => g
  | some w => if writeFails f w then g else updOne w g

/-- Cumulative effect of the revalidateGoals loop on a single goals row. -/
def procUpd (f : Failures) (userId : Nat) (entries : List Entry) (me : Option Entry)
    (affected : List Goal) (g : Goal) : Goal :=
  affected.foldl (fun g a => stepUpd f userId entries me a g) g

/-- Goals rows of the store carrying a given id. -/
def goalsById (s : Store) (gid : Nat) : List Goal :=
  s.goals.filter (fun g => decide (g.id = gid))

/-- Loss goal from 200 to 180, active, created at time 0. -/
def w1Goal : Goal :=
  { id := 1, user_id := 0, start_weight := 200, target_weight := 180,
    status := GoalStatus.active, completed_at := none, completed_entry_id := none,
    created_at := 0 }

/-- Entry of weight 179 recorded at time 3. -/
def w2Entry : Entry :=
  { id := 7, user_id := 0, weight := 179, recorded_at := 3, created_at := 12 }

/-- Corrupted goal with start_weight 0, completed by entry 1. -/
def c5Goal : Goal :=
  { id := 3, user_id := 0, start_weight := 0, target_weight := 180,
    status := GoalStatus.completed, completed_at := some 5, completed_entry_id := some 1,
    created_at := 0 }

/-- Entry of weight 185 recorded at time 6. -/
def c5Entry : Entry :=
  { id := 2, user_id := 0, weight := 185, recorded_at := 6, created_at := 6 }

/-- Active loss goal from 200 to 180 created at time 10. -/
def c6Goal : Goal :=
  { id := 9, user_id := 0, start_weight := 200, target_weight := 180,
    status := GoalStatus.active, completed_at := none, completed_entry_id := none,
    created_at := 10 }

/-- Backdated entry of weight 179 recorded at time 3, created at time 12. -/
def c6Entry : Entry :=
  { id := 7, user_id := 0, weight := 179, recorded_at := 3, created_at := 12 }

def c6Store : Store := { entries := [c6Entry], goals := [c6Goal] }

/-- Loss goal from 200 to 180 created at time 0, completed by entry 1 at time 5. -/
def c6bGoal : Goal :=
  { id := 4, user_id := 0, start_weight := 200, target_weight := 180,
    status := GoalStatus.completed, completed_at := some 5, completed_entry_id := some 1,
    created_at := 0 }

/-- Post-edit version of entry 1: weight raised to 190, no longer achieving. -/
def c6bEntryMod : Entry :=
  { id := 1, user_id := 0, weight := 190, recorded_at := 5, created_at := 5 }

/-- Entry of weight 178 recorded at time 7, achieving the 180 loss target. -/
def c6bEntry2 : Entry :=
  { id := 2, user_id := 0, weight := 178, recorded_at := 7, created_at := 7 }

def w4Store : Store := { entries := [c6bEntryMod], goals := [c6bGoal] }

def w7Store : Store := { entries := [c6bEntry2], goals := [c6bGoal] }

/-- Family of 1001 distinct entries of one user. -/
def c8Entry (i : Nat) : Entry :=
  { id := i, user_id := 0, weight := 200, recorded_at := i, created_at := i }

def c8Store : Store := { entries := (List.range 1001).map c8Entry, goals := [] }

/-- Completed goal 1, completed by entry 3. -/
def c9Goal1 : Goal :=
  { id := 1, user_id := 0, start_weight := 200, target_weight := 180,
    status := GoalStatus.completed, completed_at := some 5, completed_entry_id := some 3,
    created_at := 0 }

/-- Completed goal 2, also completed by entry 3. -/
def c9Goal2 : Goal :=
  { id := 2, user_id := 0, start_weight := 200, target_weight := 185,
    status := GoalStatus.completed, completed_at := some 5, completed_entry_id := some 3,
    created_at := 0 }

def c9Store : Store := { entries := [c6bEntry2], goals := [c9Goal1, c9Goal2] }

/-- Failure oracle whose goal writes fail exactly for goal id 1. -/
def c9Failures : Failures :=
  { completedGoalsReadFails := false, entriesReadFails := false,
    revertWriteFails := fun gid => decide (gid = 1),
    updateWriteFails := fun gid => decide (gid = 1) }

/-- Creation input carrying no recorded_at. -/
def c10Input : CreateEntryInput := { weight := 179, recorded_at := none }

/-!
Supporting lemmas: field preservation of row updates, the write targets of
the revalidation decision, the revalidateGoals loop as a mapped per-row
update, and membership characterisations of the store reads.
-/

theorem updOne_id (w : GoalWrite) (g : Goal) : (updOne w g).id = g.id := by
  cases w <;> simp only [updOne] <;> split <;> rfl

theorem updOne_user_id (w : GoalWrite) (g : Goal) : (updOne w g).user_id = g.user_id := by
  cases w <;> simp only [updOne] <;> split <;> rfl

theorem updOne_created_at (w : GoalWrite) (g : Goal) : (updOne w g).created_at = g.created_at := by
  cases w <;> simp only [updOne] <;> split <;> rfl

theorem updOne_start_weight (w : GoalWrite) (g : Goal) :
    (updOne w g).start_weight = g.start_weight := by
  cases w <;> simp only [updOne] <;> split <;> rfl

theorem updOne_target_weight (w : GoalWrite) (g : Goal) :
    (updOne w g).target_weight = g.target_weight := by
  cases w <;> simp only [updOne] <;> split <;> rfl

theorem updOne_miss (w : GoalWrite) (g : Goal) (h : g.id ≠ goalWriteGoalId w) :
    updOne w g = g := by
  cases w with
  | complete uid gid eid t => exact if_neg (fun hc => h hc.1)
  | revert uid gid => exact if_neg (fun hc => h hc.1)
  | updateCompletion uid gid eid t => exact if_neg (fun hc => h hc.1)

theorem revalidateSingleGoal_write_ids (userId : Nat) (g : Goal) (entries : List Entry)
    (me : Option Entry) (w : GoalWrite)
    (h : revalidateSingleGoal userId g entries me = some w) :
    goalWriteGoalId w = g.id ∧ goalWriteUserId w = userId := by
  unfold revalidateSingleGoal at h
  rcases e : List.insertionSort entryLe (eligibleEntries g entries me) with _ | ⟨e0, rest⟩
  · rw [e] at h
    simp only [Option.some.injEq] at h
    rw [← h]
    exact ⟨rfl, rfl⟩
  · rw [e] at h
    dsimp only at h
    by_cases hc : g.completed_entry_id ≠ some e0.id ∨ g.completed_at ≠ some e0.recorded_at
    · rw [if_pos hc] at h
      simp only [Option.some.injEq] at h
      rw [← h]
      exact ⟨rfl, rfl⟩
    · rw [if_neg hc] at h
      exact absurd h (by simp)

theorem stepUpd_id (f : Failures) (userId : Nat) (entries : List Entry) (me : Option Entry)
    (a g : Goal) : (stepUpd f userId entries me a g).id = g.id := by
  unfold stepUpd
  rcases h : revalidateSingleGoal userId a entries me with _ | w
  · rfl
  · dsimp only
    by_cases hf : writeFails f w
    · rw [if_pos hf]
    · rw [if_neg hf]
      exact updOne_id w g

theorem stepUpd_miss (f : Failures) (userId : Nat) (entries : List Entry) (me : Option Entry)
    (a g : Goal) (h : g.id ≠ a.id) : stepUpd f userId entries me a g = g := by
  unfold stepUpd
  rcases hd : revalidateSingleGoal userId a entries me with _ | w
  · rfl
  · dsimp only
    have hids := revalidateSingleGoal_write_ids userId a entries me w hd
    have hmiss : updOne w g = g := updOne_miss w g (by rw [hids.1]; exact h)
    by_cases hf : writeFails f w
    · rw [if_pos hf]
    · rw [if_neg hf]
      exact hmiss

theorem procUpd_id (f : Failures) (userId : Nat) (entries : List Entry) (me : Option Entry)
    (affected : List Goal) : ∀ g : Goal, (procUpd f userId entries me affected g).id = g.id := by
  induction affected with
  | nil => intro g; rfl
  | cons a rest ih =>
      intro g
      show (procUpd f userId entries me rest (stepUpd f userId entries me a g)).id = g.id
      rw [ih, stepUpd_id]

theorem procUpd_not_mem (f : Failures) (userId : Nat) (entries : List Entry) (me : Option Entry)
    (affected : List Goal) : ∀ g : Goal, g.id ∉ affected.map Goal.id →
    procUpd f userId entries me affected g = g := by
  induction affected with
  | nil => intro g _; rfl
  | cons a rest ih =>
      intro g h
      rw [List.map_cons] at h
      have h1 : g.id ≠ a.id := fun hc => h (by rw [hc]; exact List.mem_cons_self _ _)
      have h2 : g.id ∉ rest.map Goal.id := fun hc => h (List.mem_cons_of_mem _ hc)
      show procUpd f userId entries me rest (stepUpd f userId entries me a g) = g
      rw [stepUpd_miss f userId entries me a g h1]
      exact ih g h2

theorem procUpd_mem (f : Failures) (userId : Nat) (entries : List Entry) (me : Option Entry)
    (affected : List Goal) : ∀ g : Goal, g ∈ affected → (affected.map Goal.id).Nodup →
    procUpd f userId entries me affected g = stepUpd f userId entries me g g := by
  induction affected with
  | nil => intro g hmem _; cases hmem
  | cons a rest ih =>
      intro g hmem hnd
      rw [List.map_cons, List.nodup_cons] at hnd
      rcases List.mem_cons.mp hmem with h | h
      · subst h
        show procUpd f userId entries me rest (stepUpd f userId entries me g g)
            = stepUpd f userId entries me g g
        apply procUpd_not_mem
        rw [stepUpd_id]
        exact hnd.1
      · have hne : g.id ≠ a.id := by
          intro hc
          exact hnd.1 (hc ▸ List.mem_map.mpr ⟨g, h, rfl⟩)
        show procUpd f userId entries me rest (stepUpd f userId entries me a g)
            = stepUpd f userId entries me g g
        rw [stepUpd_miss f userId entries me a g hne]
        exact ih g h hnd.2

theorem map_pointwise {α β : Type} (F G : α → β) (h : ∀ x, F x = G x) :
    ∀ l : List α, l.map F = l.map G := by
  intro l
  induction l with
  | nil => rfl
  | cons a t ih => simp only [List.map_cons, h a, ih]

theorem map_pointwise_mem {α β : Type} (F G : α → β) :
    ∀ l : List α, (∀ x ∈ l, F x = G x) → l.map F = l.map G := by
  intro l
  induction l with
  | nil => intro _; rfl
  | cons a t ih =>
      intro h
      simp only [List.map_cons, h a (List.mem_cons_self _ _),
        ih (fun x hx => h x (List.mem_cons_of_mem a hx))]

theorem revalProcess_foldl_fst (f : Failures) (userId : Nat) (entries : List Entry)
    (me : Option Entry) (affected : List Goal) :
    ∀ (s : Store) (n : Nat),
      (affected.foldl (stepPair f userId entries me) (s, n)).1
        = { entries := s.entries,
            goals := s.goals.map (procUpd f userId entries me affected) } := by
  induction affected with
  | nil =>
      intro s n
      have hmap : s.goals.map (procUpd f userId entries me []) = s.goals :=
        (map_pointwise _ id (fun x => rfl) s.goals).trans (List.map_id s.goals)
      rw [List.foldl_nil, hmap]
  | cons a rest ih =>
      intro s n
      rw [List.foldl_cons]
      have hpt : ∀ g : Goal, procUpd f userId entries me (a :: rest) g
          = procUpd f userId entries me rest (stepUpd f userId entries me a g) :=
        fun g => rfl
      rcases hd : revalidateSingleGoal userId a entries me with _ | w
      · have hsp : stepPair f userId entries me (s, n) a = (s, n) := by
          unfold stepPair
          rw [hd]
        have hstep : ∀ g : Goal, stepUpd f userId entries me a g = g := by
          intro g
          unfold stepUpd
          rw [hd]
        rw [hsp, ih s n]
        have : s.goals.map (procUpd f userId entries me (a :: rest))
            = s.goals.map (procUpd f userId entries me rest) :=
          map_pointwise _ _ (fun g => by rw [hpt g, hstep g]) s.goals
        rw [this]
      · by_cases hf : writeFails f w
        · have hsp : stepPair f userId entries me (s, n) a = (s, n + 1) := by
            unfold stepPair
            rw [hd]
            dsimp only
            rw [if_pos hf]
          have hstep : ∀ g : Goal, stepUpd f userId entries me a g = g := by
            intro g
            unfold stepUpd
            rw [hd]
            dsimp only
            rw [if_pos hf]
          rw [hsp, ih s (n + 1)]
          have : s.goals.map (procUpd f userId entries me (a :: rest))
              = s.goals.map (procUpd f userId entries me rest) :=
            map_pointwise _ _ (fun g => by rw [hpt g, hstep g]) s.goals
          rw [this]
        · have hsp : stepPair f userId entries me (s, n) a = (applyGoalWrite s w, n + 1) := by
            unfold stepPair
            rw [hd]
            dsimp only
            rw [if_neg hf]
          have hstep : ∀ g : Goal, stepUpd f userId entries me a g = updOne w g := by
            intro g
            unfold stepUpd
            rw [hd]
            dsimp only
            rw [if_neg hf]
          rw [hsp, ih (applyGoalWrite s w) (n + 1)]
          show ({ entries := s.entries,
                  goals := (s.goals.map (updOne w)).map (procUpd f userId entries me rest) } : Store)
              = { entries := s.entries,
                  goals := s.goals.map (procUpd f userId entries me (a :: rest)) }
          rw [List.map_map]
          have : s.goals.map (procUpd f userId entries me rest ∘ updOne w)
              = s.goals.map (procUpd f userId entries me (a :: rest)) :=
            map_pointwise _ _ (fun g => by
              show procUpd f userId entries me rest (updOne w g) = _
              rw [hpt g, hstep g]) s.goals
          rw [this]

theorem revalProcess_fst (f : Failures) (userId : Nat) (entries : List Entry)
    (me : Option Entry) (affected : List Goal) (s : Store) :
    (revalProcess f userId entries me affected s).1
      = { entries := s.entries,
          goals := s.goals.map (procUpd f userId entries me affected) } :=
  revalProcess_foldl_fst f userId entries me affected s 0

theorem revalProcess_all_none (f : Failures) (userId : Nat) (entries : List Entry)
    (me : Option Entry) (affected : List Goal) :
    ∀ s : Store, (∀ g ∈ affected, revalidateSingleGoal userId g entries me = none) →
    revalProcess f userId entries me affected s = (s, 0) := by
  induction affected with
  | nil => intro s _; rfl
  | cons a rest ih =>
      intro s h
      show (a :: rest).foldl (stepPair f userId entries me) (s, 0) = (s, 0)
      rw [List.foldl_cons]
      have hsp : stepPair f userId entries me (s, 0) a = (s, 0) := by
        unfold stepPair
        rw [h a (List.mem_cons_self _ _)]
      rw [hsp]
      exact ih s (fun g hg => h g (List.mem_cons_of_mem a hg))

theorem mem_affectedGoalsOf (s : Store) (userId aid : Nat) (g : Goal) :
    g ∈ affectedGoalsOf s userId aid
      ↔ g ∈ s.goals ∧ g.user_id = userId ∧ g.status = GoalStatus.completed ∧
        g.completed_entry_id = some aid := by
  unfold affectedGoalsOf getCompletedGoals
  rw [List.mem_filter, List.mem_insertionSort, List.mem_filter]
  simp [and_assoc]

theorem eligibleCheck_congr (g1 g2 : Goal) (me : Option Entry)
    (h1 : g1.completed_entry_id = g2.completed_entry_id)
    (h2 : g1.created_at = g2.created_at)
    (h3 : g1.start_weight = g2.start_weight)
    (h4 : g1.target_weight = g2.target_weight) :
    eligibleCheck g1 me = eligibleCheck g2 me := by
  funext e
  unfold eligibleCheck meetsGoal
  rw [h1, h2, h3, h4]

theorem getEntries_congr (s s2 : Store) (userId n : Nat) (h : s2.entries = s.entries) :
    getEntries s2 userId n = getEntries s userId n := by
  unfold getEntries
  rw [h]

theorem revalidateGoalsRun_open (f : Failures) (s : Store) (uid aid : Nat) (me : Option Entry)
    (hr : f.completedGoalsReadFails = false) (he : f.entriesReadFails = false) :
    revalidateGoalsRun f s uid aid me
      = (if (affectedGoalsOf s uid aid).isEmpty then (s, 0)
         else revalProcess f uid (getEntries s uid 1000) me (affectedGoalsOf s uid aid) s) := by
  unfold revalidateGoalsRun
  rw [hr, he]
  simp only [Bool.false_eq_true, if_false]

theorem writeFails_noFailures (w : GoalWrite) : writeFails noFailures w = false := by
  cases w <;> rfl

theorem second_pass_decision_none (s : Store) (uid aid : Nat) (me : Option Entry)
    (hnd : (s.goals.map Goal.id).Nodup) (E : List Entry) (g2 : Goal)
    (hg2 : g2 ∈ s.goals.map (procUpd noFailures uid E me (affectedGoalsOf s uid aid)))
    (hstat : g2.status = GoalStatus.completed)
    (huser : g2.user_id = uid)
    (hceid : g2.completed_entry_id = some aid) :
    revalidateSingleGoal uid g2 E me = none := by
  obtain ⟨g, hgmem, hgP⟩ := List.mem_map.mp hg2
  have hinj : ∀ x ∈ s.goals, ∀ y ∈ s.goals, x.id = y.id → x = y :=
    List.inj_on_of_nodup_map hnd
  have hAsub : ∀ a ∈ affectedGoalsOf s uid aid, a ∈ s.goals :=
    fun a ha => ((mem_affectedGoalsOf s uid aid a).mp ha).1
  by_cases hgA : g ∈ affectedGoalsOf s uid aid
  · have hAnd : ((affectedGoalsOf s uid aid).map Goal.id).Nodup := by
      have hsg : s.goals.Nodup := List.Nodup.of_map Goal.id hnd
      have hA : (affectedGoalsOf s uid aid).Nodup := by
        unfold affectedGoalsOf getCompletedGoals
        exact (((List.perm_insertionSort goalDescLe _).nodup_iff).mpr
          (hsg.filter _)).filter _
      exact hA.map_on
        (fun x hx y hy hxy => hinj x (hAsub x hx) y (hAsub y hy) hxy) 
    have hguser : g.user_id = uid := ((mem_affectedGoalsOf s uid aid g).mp hgA).2.1
    have hgceid : g.completed_entry_id = some aid :=
      ((mem_affectedGoalsOf s uid aid g).mp hgA).2.2.2
    have hgP2 : g2 = stepUpd noFailures uid E me g g := by
      rw [← hgP]
      exact procUpd_mem noFailures uid E me (affectedGoalsOf s uid aid) g hgA hAnd
    rcases hsort : List.insertionSort entryLe (eligibleEntries g E me) with _ | ⟨e0, rest⟩
    · exfalso
      have hd : revalidateSingleGoal uid g E me = some (GoalWrite.revert uid g.id) := by
        unfold revalidateSingleGoal
        rw [hsort]
      have hg2g : g2 = updOne (GoalWrite.revert uid g.id) g := by
        rw [hgP2]
        unfold stepUpd
        rw [hd]
        rfl
      have hact : g2.status = GoalStatus.active := by
        rw [hg2g]
        simp [updOne, hguser]
      rw [hstat] at hact
      exact GoalStatus.noConfusion hact
    · by_cases hcnd : g.completed_entry_id ≠ some e0.id ∨ g.completed_at ≠ some e0.recorded_at
      · have hd : revalidateSingleGoal uid g E me
            = some (GoalWrite.updateCompletion uid g.id e0.id e0.recorded_at) := by
          unfold revalidateSingleGoal
          rw [hsort]
          dsimp only
          rw [if_pos hcnd]
        have hg2g : g2 = updOne (GoalWrite.updateCompletion uid g.id e0.id e0.recorded_at) g := by
          rw [hgP2]
          unfold stepUpd
          rw [hd]
          rfl
        have hcondg : g.id = g.id ∧ g.user_id = uid := ⟨rfl, hguser⟩
        have hfields : g2.completed_entry_id = some e0.id ∧
            g2.completed_at = some e0.recorded_at ∧
            g2.created_at = g.created_at ∧ g2.start_weight = g.start_weight ∧
            g2.target_weight = g.target_weight := by
          rw [hg2g]
          simp [updOne, hcondg]
        have helig : eligibleEntries g2 E me = eligibleEntries g E me := by
          unfold eligibleEntries
          rw [eligibleCheck_congr g2 g me
            (by rw [hfields.1, hgceid, ← hceid, hfields.1])
            hfields.2.2.1 hfields.2.2.2.1 hfields.2.2.2.2]
        unfold revalidateSingleGoal
        rw [helig, hsort]
        dsimp only
        rw [if_neg]
        push_neg
        exact ⟨hfields.1, hfields.2.1⟩
      · push_neg at hcnd
        have hd : revalidateSingleGoal uid g E me = none := by
          unfold revalidateSingleGoal
          rw [hsort]
          dsimp only
          rw [if_neg]
          push_neg
          exact hcnd
        have hg2g : g2 = g := by
          rw [hgP2]
          unfold stepUpd
          rw [hd]
        rw [hg2g]
        exact hd
  · exfalso
    have hid : g.id ∉ (affectedGoalsOf s uid aid).map Goal.id := by
      intro hmem2
      obtain ⟨a, haA, haid⟩ := List.mem_map.mp hmem2
      have : a = g := hinj a (hAsub a haA) g hgmem haid
      exact hgA (this ▸ haA)
    have hg2g : g2 = g := by
      rw [← hgP]
      exact procUpd_not_mem noFailures uid E me (affectedGoalsOf s uid aid) g hid
    apply hgA
    rw [hg2g] at hstat hceid huser
    exact (mem_affectedGoalsOf s uid aid g).mpr ⟨hgmem, huser, hstat, hceid⟩

theorem procUpd_congr_f (f : Failures) (userId : Nat) (entries : List Entry) (me : Option Entry)
    (affected : List Goal) : ∀ x : Goal,
    f.revertWriteFails x.id = false → f.updateWriteFails x.id = false →
    procUpd f userId entries me affected x = procUpd noFailures userId entries me affected x := by
  induction affected with
  | nil => intro x _ _; rfl
  | cons a rest ih =>
      intro x hr hu
      show procUpd f userId entries me rest (stepUpd f userId entries me a x)
          = procUpd noFailures userId entries me rest (stepUpd noFailures userId entries me a x)
      have hstep : stepUpd f userId entries me a x = stepUpd noFailures userId entries me a x := by
        unfold stepUpd
        rcases hd : revalidateSingleGoal userId a entries me with _ | w
        · rfl
        · dsimp only
          have hids := revalidateSingleGoal_write_ids userId a entries me w hd
          rw [writeFails_noFailures w]
          by_cases hxa : x.id = a.id
          · have hwf : writeFails f w = false := by
              cases w with
              | complete u gid eid t => rfl
              | revert u gid =>
                  show f.revertWriteFails gid = false
                  rw [show gid = x.id from by rw [hxa, ← hids.1]; rfl]
                  exact hr
              | updateCompletion u gid eid t =>
                  rw [show gid = x.id from by rw [hxa, ← hids.1]; rfl]
                  exact hu
            rw [hwf]
          · have hmiss : updOne w x = x := updOne_miss w x (by rw [hids.1]; exact hxa)
            rw [hmiss]
            by_cases hf : writeFails f w
            · rw [if_pos hf, if_neg (by simp)]
            · rw [if_neg hf, if_neg (by simp)]
      rw [hstep]
      apply ih
      · rw [stepUpd_id]
        exact hr
      · rw [stepUpd_id]
        exact hu

/-!
Claim theorems. Each theorem names the claim of the specification it
settles; a witness theorem instantiates its claim theorem at concrete
store contents.
-/


/-- Claim C1: for every goal with positive start and target weights and start different from target, the completion predicate, inlined identically in the Detector and in the Revalidator, holds exactly when start > target and the entry weight is at most the target, or start < target and the entry weight is at least the target. -/
theorem completion_predicate_correct (g : Goal) (w : Rat)
    (hs : 0 < g.start_weight) (ht : 0 < g.target_weight)
    (hne : g.start_weight ≠ g.target_weight) :
    isGoalAchieved g w = meetsGoal g w ∧
    (meetsGoal g w = true ↔
      (g.target_weight < g.start_weight ∧ w ≤ g.target_weight) ∨
      (g.start_weight < g.target_weight ∧ g.target_weight ≤ w)) := by
  refine ⟨rfl, ?_⟩
  unfold meetsGoal
  rcases lt_or_gt_of_ne hne with h | h
  · rw [if_neg (asymm h)]
    simp [h, asymm h, decide_eq_true_iff]
  · rw [if_pos h]
    simp [h, asymm h, decide_eq_true_iff]

/-- Witness for C1 at the loss goal from 200 to 180 and entry weight 179. -/
theorem completion_predicate_correct_witness :
    isGoalAchieved w1Goal 179 = meetsGoal w1Goal 179 ∧
    (meetsGoal w1Goal 179 = true ↔
      (w1Goal.target_weight < w1Goal.start_weight ∧ (179 : Rat) ≤ w1Goal.target_weight) ∨
      (w1Goal.start_weight < w1Goal.target_weight ∧ w1Goal.target_weight ≤ 179)) :=
  completion_predicate_correct w1Goal 179 (by decide) (by decide) (by decide)

/-- Claim C2: with an active goal of positive start weight, entry creation issues exactly one goal write when the predicate holds, marking the goal completed with completed_entry_id the new entry id and completed_at the entry recorded_at (never the wall clock), and issues no write otherwise, leaving the store unchanged. -/
theorem detector_completion (g : Goal) (e : Entry) (s : Store) (hs : 0 < g.start_weight) :
    (isGoalAchieved g e.weight = true →
      createEntryOnSuccess (some g) e = [GoalWrite.complete g.user_id g.id e.id e.recorded_at] ∧
      ∀ g' ∈ ((createEntryOnSuccess (some g) e).foldl applyGoalWrite s).goals,
        g'.id = g.id → g'.user_id = g.user_id →
          g'.status = GoalStatus.completed ∧ g'.completed_entry_id = some e.id ∧
          g'.completed_at = some e.recorded_at) ∧
    (isGoalAchieved g e.weight = false →
      createEntryOnSuccess (some g) e = [] ∧
      (createEntryOnSuccess (some g) e).foldl applyGoalWrite s = s) := by
  have hns : ¬ g.start_weight ≤ 0 := not_le.mpr hs
  constructor
  · intro hach
    have hw : createEntryOnSuccess (some g) e
        = [GoalWrite.complete g.user_id g.id e.id e.recorded_at] := by
      simp only [createEntryOnSuccess]
      rw [if_neg hns, if_pos hach]
    refine ⟨hw, ?_⟩
    rw [hw]
    intro g' hg' hid huid
    simp only [List.foldl, applyGoalWrite, List.mem_map] at hg'
    obtain ⟨a, _, ha⟩ := hg'
    by_cases hcond : a.id = g.id ∧ a.user_id = g.user_id
    · rw [← ha]; simp [updOne, hcond]
    · exfalso
      apply hcond
      rw [← ha] at hid huid
      simp [updOne, hcond] at hid huid
      exact ⟨hid, huid⟩
  · intro hach
    have hw : createEntryOnSuccess (some g) e = [] := by
      simp only [createEntryOnSuccess]
      rw [if_neg hns]
      simp [hach]
    exact ⟨hw, by rw [hw]; rfl⟩

/-- Witness for C2: the goal from 200 to 180 completes on the entry of weight 179 recorded at time 3. -/
theorem detector_completion_witness :
    createEntryOnSuccess (some w1Goal) w2Entry
      = [GoalWrite.complete w1Goal.user_id w1Goal.id w2Entry.id w2Entry.recorded_at] :=
  ((detector_completion w1Goal w2Entry { entries := [w2Entry], goals := [w1Goal] }
    (by decide)).1 (by decide)).1

/-- Claim C3: for a completed goal credited to the affected entry, with the store agreeing with the modified entry snapshot, the eligible set is exactly the entries passing the creation bound and the predicate; when it is nonempty the Revalidator selects an eligible entry of minimal recorded_at and issues the completion-details write exactly when its id or recorded_at differs from the stored fields, otherwise leaving the goal unchanged. -/
theorem revalidator_reassignment (userId aid : Nat) (g : Goal) (entries : List Entry)
    (me : Option Entry)
    (hg : g.status = GoalStatus.completed ∧ g.completed_entry_id = some aid)
    (hc : ∀ e ∈ entries, g.completed_entry_id = some e.id → me = some e)
    (hne : eligibleEntries g entries me ≠ []) :
    eligibleEntries g entries me
      = entries.filter (fun e => decide (g.created_at ≤ e.recorded_at) && meetsGoal g e.weight) ∧
    ∃ sel ∈ eligibleEntries g entries me,
      (∀ e ∈ eligibleEntries g entries me, sel.recorded_at ≤ e.recorded_at) ∧
      revalidateSingleGoal userId g entries me =
        (if g.completed_entry_id ≠ some sel.id ∨ g.completed_at ≠ some sel.recorded_at
         then some (GoalWrite.updateCompletion userId g.id sel.id sel.recorded_at)
         else none) := by
  have hbody : ∀ x : Entry,
      (if x.recorded_at < g.created_at then false else meetsGoal g x.weight)
      = (decide (g.created_at ≤ x.recorded_at) && meetsGoal g x.weight) := by
    intro x
    by_cases hd : x.recorded_at < g.created_at
    · rw [if_pos hd]
      have hn : ¬ g.created_at ≤ x.recorded_at := Nat.not_le.mpr hd
      simp [hn]
    · rw [if_neg hd]
      have hp : g.created_at ≤ x.recorded_at := Nat.le_of_not_lt hd
      simp [hp]
  have hfil : eligibleEntries g entries me
      = entries.filter (fun e => decide (g.created_at ≤ e.recorded_at) && meetsGoal g e.weight) := by
    unfold eligibleEntries
    refine List.filter_congr ?_
    intro e hmem
    unfold eligibleCheck
    by_cases hce : g.completed_entry_id = some e.id
    · rw [if_pos hce, hc e hmem hce]
      exact hbody e
    · rw [if_neg hce]
      exact hbody e
  refine ⟨hfil, ?_⟩
  rcases hsort : List.insertionSort entryLe (eligibleEntries g entries me) with _ | ⟨sel, rest⟩
  · exfalso
    apply hne
    have := List.length_insertionSort entryLe (eligibleEntries g entries me)
    rw [hsort] at this
    exact List.eq_nil_of_length_eq_zero this.symm
  · have hmemsel : sel ∈ eligibleEntries g entries me := by
      rw [← List.mem_insertionSort (r := entryLe), hsort]
      exact List.mem_cons_self _ _
    have hsorted := List.sorted_insertionSort entryLe (eligibleEntries g entries me)
    rw [hsort] at hsorted
    have hmin : ∀ e ∈ eligibleEntries g entries me, sel.recorded_at ≤ e.recorded_at := by
      intro e he
      rw [← List.mem_insertionSort (r := entryLe), hsort] at he
      rcases List.mem_cons.mp he with h | h
      · rw [h]
      · exact (List.sorted_cons.mp hsorted).1 e h
    refine ⟨sel, hmemsel, hmin, ?_⟩
    unfold revalidateSingleGoal
    rw [hsort]

/-- Witness for C3: deleting entry 1 reassigns completion of the goal to entry 2. -/
theorem revalidator_reassignment_witness :
    eligibleEntries c6bGoal [c6bEntry2] none
      = [c6bEntry2].filter
          (fun e => decide (c6bGoal.created_at ≤ e.recorded_at) && meetsGoal c6bGoal e.weight) ∧
    ∃ sel ∈ eligibleEntries c6bGoal [c6bEntry2] none,
      (∀ e ∈ eligibleEntries c6bGoal [c6bEntry2] none, sel.recorded_at ≤ e.recorded_at) ∧
      revalidateSingleGoal 0 c6bGoal [c6bEntry2] none =
        (if c6bGoal.completed_entry_id ≠ some sel.id ∨
            c6bGoal.completed_at ≠ some sel.recorded_at
         then some (GoalWrite.updateCompletion 0 c6bGoal.id sel.id sel.recorded_at)
         else none) :=
  revalidator_reassignment 0 1 c6bGoal [c6bEntry2] none (by decide) (by decide) (by decide)

/-- Claim C4: when the eligible set is empty the Revalidator issues the revert write, which sets the matching goal back to active with completed_at and completed_entry_id cleared, touches no entries row, and deletes no goals row. -/
theorem revalidator_reversion (userId aid : Nat) (g : Goal) (entries : List Entry)
    (me : Option Entry) (s : Store)
    (hg : g.status = GoalStatus.completed ∧ g.completed_entry_id = some aid)
    (hemp : eligibleEntries g entries me = []) :
    revalidateSingleGoal userId g entries me = some (GoalWrite.revert userId g.id) ∧
    (applyGoalWrite s (GoalWrite.revert userId g.id)).entries = s.entries ∧
    (applyGoalWrite s (GoalWrite.revert userId g.id)).goals.map Goal.id = s.goals.map Goal.id ∧
    ∀ g' ∈ (applyGoalWrite s (GoalWrite.revert userId g.id)).goals,
      g'.id = g.id → g'.user_id = userId →
        g'.status = GoalStatus.active ∧ g'.completed_at = none ∧
        g'.completed_entry_id = none := by
  refine ⟨?_, rfl, ?_, ?_⟩
  · unfold revalidateSingleGoal
    rw [hemp]
    rfl
  · show (s.goals.map (updOne (GoalWrite.revert userId g.id))).map Goal.id = s.goals.map Goal.id
    rw [List.map_map]
    have : Goal.id ∘ updOne (GoalWrite.revert userId g.id) = Goal.id := by
      funext a
      exact updOne_id _ a
    rw [this]
  · intro g' hg' hid huid
    simp only [applyGoalWrite, List.mem_map] at hg'
    obtain ⟨a, _, ha⟩ := hg'
    by_cases hcond : a.id = g.id ∧ a.user_id = userId
    · rw [← ha]
      simp [updOne, hcond]
    · exfalso
      apply hcond
      rw [← ha] at hid huid
      simp [updOne, hcond] at hid huid
      exact ⟨hid, huid⟩

/-- Witness for C4: editing the sole qualifying entry to weight 190 reverts the goal. -/
theorem revalidator_reversion_witness :
    revalidateSingleGoal 0 c6bGoal [c6bEntryMod] (some c6bEntryMod)
      = some (GoalWrite.revert 0 c6bGoal.id) ∧
    (applyGoalWrite w4Store (GoalWrite.revert 0 c6bGoal.id)).entries = w4Store.entries ∧
    (applyGoalWrite w4Store (GoalWrite.revert 0 c6bGoal.id)).goals.map Goal.id
      = w4Store.goals.map Goal.id ∧
    ∀ g' ∈ (applyGoalWrite w4Store (GoalWrite.revert 0 c6bGoal.id)).goals,
      g'.id = c6bGoal.id → g'.user_id = 0 →
        g'.status = GoalStatus.active ∧ g'.completed_at = none ∧
        g'.completed_entry_id = none :=
  revalidator_reversion 0 1 c6bGoal [c6bEntryMod] (some c6bEntryMod) w4Store
    (by decide) (by decide)

/-- Claim C5 counterexample: the eligibility filter of the Revalidator evaluates its inlined completion predicate to true for a goal whose start_weight is zero; no InvalidGoalState guard exists on that code path, refuting that both paths guard against start_weight at most 0. -/
theorem revalidator_guard_counterexample :
    c5Goal.start_weight ≤ 0 ∧ meetsGoal c5Goal 185 = true ∧
    eligibleCheck c5Goal none c5Entry = true := by decide

/-- Claim C5 amended: for start_weight at most 0 the Detector path logs a warning and issues no completion write, while the Revalidator filter carries no guard: whenever the target weight is positive its predicate degenerates to the gain comparison against the target. -/
theorem guard_only_on_detector_path (g : Goal) (e : Entry) (w : Rat)
    (h : g.start_weight ≤ 0) :
    createEntryOnSuccess (some g) e = [] ∧
    (0 < g.target_weight → meetsGoal g w = decide (g.target_weight ≤ w)) := by
  constructor
  · simp only [createEntryOnSuccess]
    rw [if_pos h]
  · intro ht
    unfold meetsGoal
    rw [if_neg (not_lt.mpr (h.trans ht.le))]

/-- Witness for the amended C5 at the zero-start goal and entry weight 185. -/
theorem guard_only_on_detector_path_witness :
    createEntryOnSuccess (some c5Goal) c5Entry = [] ∧
    (0 < c5Goal.target_weight → meetsGoal c5Goal 185 = decide (c5Goal.target_weight ≤ 185)) :=
  guard_only_on_detector_path c5Goal c5Entry 185 (by decide)

/-- Claim C6 counterexample: the Detector checks only the weight predicate, so a newly created entry backdated before the goal creation produces a completion write, and the resulting store holds a completed goal whose completing entry was recorded before goal.created_at, refuting the invariant on the Detector path. -/
theorem detector_backdated_counterexample :
    c6Entry.recorded_at < c6Goal.created_at ∧
    createEntryOnSuccess (some c6Goal) c6Entry = [GoalWrite.complete 0 9 7 3] ∧
    ((createEntryOnSuccess (some c6Goal) c6Entry).foldl applyGoalWrite c6Store).goals =
      [{ c6Goal with status := GoalStatus.completed, completed_at := some 3,
                     completed_entry_id := some 7 }] := by decide

/-- Claim C6 amended: the Revalidator never writes completion details pointing at an entry recorded before the goal creation, provided the modified entry snapshot agrees with the stored row it replaces; the Detector performs no such recorded_at check (see the counterexample). -/
theorem revalidator_respects_creation_bound (userId : Nat) (g : Goal) (entries : List Entry)
    (me : Option Entry)
    (hc : ∀ e ∈ entries, g.completed_entry_id = some e.id → me = some e)
    (uid2 gid eid t : Nat)
    (hw : revalidateSingleGoal userId g entries me
        = some (GoalWrite.updateCompletion uid2 gid eid t)) :
    g.created_at ≤ t ∧ ∃ e ∈ entries, e.id = eid ∧ e.recorded_at = t := by
  unfold revalidateSingleGoal at hw
  rcases hsort : List.insertionSort entryLe (eligibleEntries g entries me) with _ | ⟨e0, rest⟩
  · rw [hsort] at hw
    simp at hw
  · rw [hsort] at hw
    dsimp only at hw
    by_cases hcond : g.completed_entry_id ≠ some e0.id ∨ g.completed_at ≠ some e0.recorded_at
    · rw [if_pos hcond] at hw
      simp only [Option.some.injEq, GoalWrite.updateCompletion.injEq] at hw
      obtain ⟨-, -, hid, ht⟩ := hw
      have hmem : e0 ∈ eligibleEntries g entries me := by
        rw [← List.mem_insertionSort (r := entryLe), hsort]
        exact List.mem_cons_self _ _
      rw [eligibleEntries, List.mem_filter] at hmem
      obtain ⟨hmem, hcheck⟩ := hmem
      have hdate : ¬ e0.recorded_at < g.created_at ∧ meetsGoal g e0.weight = true := by
        unfold eligibleCheck at hcheck
        by_cases hce : g.completed_entry_id = some e0.id
        · rw [if_pos hce, hc e0 hmem hce] at hcheck
          dsimp only at hcheck
          by_cases hd : e0.recorded_at < g.created_at
          · rw [if_pos hd] at hcheck; exact absurd hcheck (by simp)
          · rw [if_neg hd] at hcheck; exact ⟨hd, hcheck⟩
        · rw [if_neg hce] at hcheck
          dsimp only at hcheck
          by_cases hd : e0.recorded_at < g.created_at
          · rw [if_pos hd] at hcheck; exact absurd hcheck (by simp)
          · rw [if_neg hd] at hcheck; exact ⟨hd, hcheck⟩
      refine ⟨?_, e0, hmem, hid, ht⟩
      rw [← ht]
      exact Nat.le_of_not_lt hdate.1
    · rw [if_neg hcond] at hw
      exact absurd hw (by simp)

/-- Witness for the amended C6: revalidation after editing entry 1 reassigns to entry 2 recorded at time 7, not before goal creation. -/
theorem revalidator_respects_creation_bound_witness :
    c6bGoal.created_at ≤ 7 ∧ ∃ e ∈ [c6bEntryMod, c6bEntry2], e.id = 2 ∧ e.recorded_at = 7 :=
  revalidator_respects_creation_bound 0 c6bGoal [c6bEntryMod, c6bEntry2] (some c6bEntryMod)
    (by decide) 0 4 2 7 (by decide)

/-- Claim C7: revalidation is idempotent: on a store whose goal ids are distinct, running revalidateGoals twice with the same user and affected entry and no intervening changes leaves the state of the first run unchanged, and the second run issues zero write calls. -/
theorem reval_idempotent (s : Store) (uid aid : Nat) (me : Option Entry)
    (hnd : (s.goals.map Goal.id).Nodup) :
    revalidateGoalsRun noFailures ((revalidateGoalsRun noFailures s uid aid me).1) uid aid me
      = ((revalidateGoalsRun noFailures s uid aid me).1, 0) := by
  have hopen : ∀ st : Store, revalidateGoalsRun noFailures st uid aid me
      = (if (affectedGoalsOf st uid aid).isEmpty then (st, 0)
         else revalProcess noFailures uid (getEntries st uid 1000) me
           (affectedGoalsOf st uid aid) st) :=
    fun st => revalidateGoalsRun_open noFailures st uid aid me rfl rfl
  by_cases hA : (affectedGoalsOf s uid aid).isEmpty
  · have h1 : revalidateGoalsRun noFailures s uid aid me = (s, 0) := by
      rw [hopen s, if_pos hA]
    rw [h1]
    show revalidateGoalsRun noFailures s uid aid me = (s, 0)
    exact h1
  · set E := getEntries s uid 1000 with hE
    set A := affectedGoalsOf s uid aid with hAdef
    set s2 : Store := { entries := s.entries, goals := s.goals.map (procUpd noFailures uid E me A) }
      with hs2
    have h1 : (revalidateGoalsRun noFailures s uid aid me).1 = s2 := by
      rw [hopen s, if_neg hA]
      exact revalProcess_fst noFailures uid E me A s
    rw [h1, hopen s2]
    have hE2 : getEntries s2 uid 1000 = E := getEntries_congr s s2 uid 1000 (by rw [hs2])
    have hall : ∀ g2 ∈ affectedGoalsOf s2 uid aid,
        revalidateSingleGoal uid g2 (getEntries s2 uid 1000) me = none := by
      intro g2 hg2
      rw [hE2]
      have hm := (mem_affectedGoalsOf s2 uid aid g2).mp hg2
      have hm1 : g2 ∈ s.goals.map (procUpd noFailures uid E me A) := hm.1
      exact second_pass_decision_none s uid aid me hnd E g2 hm1 hm.2.2.1 hm.2.1 hm.2.2.2
    by_cases hA2 : (affectedGoalsOf s2 uid aid).isEmpty
    · rw [if_pos hA2]
    · rw [if_neg hA2]
      rw [hE2] at hall
      exact revalProcess_all_none noFailures uid (getEntries s2 uid 1000) me
        (affectedGoalsOf s2 uid aid) s2 (by rw [hE2]; exact hall)

/-- Witness for C7 on the store whose goal was completed by the deleted entry 1. -/
theorem reval_idempotent_witness :
    revalidateGoalsRun noFailures ((revalidateGoalsRun noFailures w7Store 0 1 none).1) 0 1 none
      = ((revalidateGoalsRun noFailures w7Store 0 1 none).1, 0) :=
  reval_idempotent w7Store 0 1 none (by decide)

set_option maxRecDepth 4000 in
/-- Claim C8 counterexample: revalidateGoals reads entries through getEntries with limit 1000, so for a user with 1001 recorded entries some entry is not considered, refuting that every entry the user ever recorded is considered. -/
theorem entries_read_limit_counterexample :
    ∃ e ∈ c8Store.entries, e.user_id = 0 ∧ e ∉ getEntries c8Store 0 1000 := by
  by_contra hcon
  push_neg at hcon
  have huser : ∀ e ∈ c8Store.entries, e.user_id = 0 := by
    intro e he
    obtain ⟨i, _, hi⟩ := List.mem_map.mp he
    rw [← hi]
    rfl
  have hsub : c8Store.entries ⊆ getEntries c8Store 0 1000 :=
    fun {e} he => hcon e he (huser e he)
  have hinj : Function.Injective c8Entry := fun a b h => congrArg Entry.id h
  have hnd : c8Store.entries.Nodup := (List.nodup_range 1001).map hinj
  have hlen1 : c8Store.entries.length = 1001 := by
    show ((List.range 1001).map c8Entry).length = 1001
    rw [List.length_map, List.length_range]
  have hlen2 : (getEntries c8Store 0 1000).length ≤ 1000 := by
    unfold getEntries
    exact List.length_take_le _ _
  have hle := (List.subperm_of_subset hnd hsub).length_le
  omega

/-- Claim C8 amended: the entries snapshot used by revalidateGoals holds at most 1000 rows, each a stored entry of the user; entries beyond the 1000 most recent are not considered. -/
theorem entries_read_limited (s : Store) (userId : Nat) :
    (getEntries s userId 1000).length ≤ 1000 ∧
    ∀ e ∈ getEntries s userId 1000, e ∈ s.entries ∧ e.user_id = userId := by
  constructor
  · unfold getEntries
    exact List.length_take_le _ _
  · intro e he
    unfold getEntries at he
    have h1 := List.mem_of_mem_take he
    rw [List.mem_insertionSort, List.mem_filter] at h1
    exact ⟨h1.1, of_decide_eq_true h1.2⟩

/-- Claim C9: the revalidation pass is total for every failure oracle and never surfaces an error; a failed completed-goals read or entries read aborts the pass with the store unchanged and zero writes, the entries table is never written, and a write failure for one goal leaves every goal whose writes do not fail in exactly the state of the failure-free run. -/
theorem reval_error_isolation (s : Store) (uid aid : Nat) (me : Option Entry) (f : Failures)
    (hnd : (s.goals.map Goal.id).Nodup) :
    (f.completedGoalsReadFails = true → revalidateGoalsRun f s uid aid me = (s, 0)) ∧
    (f.entriesReadFails = true → revalidateGoalsRun f s uid aid me = (s, 0)) ∧
    (revalidateGoalsRun f s uid aid me).1.entries = s.entries ∧
    (f.completedGoalsReadFails = false → f.entriesReadFails = false →
      ∀ g ∈ s.goals, f.revertWriteFails g.id = false → f.updateWriteFails g.id = false →
        goalsById (revalidateGoalsRun f s uid aid me).1 g.id
          = goalsById (revalidateGoalsRun noFailures s uid aid me).1 g.id) := by
  have hread : f.completedGoalsReadFails = true → revalidateGoalsRun f s uid aid me = (s, 0) := by
    intro hr
    unfold revalidateGoalsRun
    rw [hr]
    rfl
  have hentriesread : f.entriesReadFails = true →
      revalidateGoalsRun f s uid aid me = (s, 0) := by
    intro he
    by_cases hr : f.completedGoalsReadFails = true
    · exact hread hr
    · rw [Bool.not_eq_true] at hr
      unfold revalidateGoalsRun
      rw [hr, he]
      by_cases hA : (affectedGoalsOf s uid aid).isEmpty
      · simp [hA]
      · simp [hA]
  have hentries : (revalidateGoalsRun f s uid aid me).1.entries = s.entries := by
    by_cases hr : f.completedGoalsReadFails = true
    · rw [hread hr]
    · rw [Bool.not_eq_true] at hr
      by_cases he : f.entriesReadFails = true
      · rw [hentriesread he]
      · rw [Bool.not_eq_true] at he
        rw [revalidateGoalsRun_open f s uid aid me hr he]
        by_cases hA : (affectedGoalsOf s uid aid).isEmpty
        · rw [if_pos hA]
        · rw [if_neg hA, revalProcess_fst]
  refine ⟨hread, hentriesread, hentries, ?_⟩
  intro hr he g hg hrw huw
  rw [revalidateGoalsRun_open f s uid aid me hr he,
    revalidateGoalsRun_open noFailures s uid aid me rfl rfl]
  by_cases hA : (affectedGoalsOf s uid aid).isEmpty
  · rw [if_pos hA, if_pos hA]
  · rw [if_neg hA, if_neg hA, revalProcess_fst, revalProcess_fst]
    show ((s.goals.map (procUpd f uid (getEntries s uid 1000) me
        (affectedGoalsOf s uid aid))).filter (fun g2 => decide (g2.id = g.id)))
      = ((s.goals.map (procUpd noFailures uid (getEntries s uid 1000) me
        (affectedGoalsOf s uid aid))).filter (fun g2 => decide (g2.id = g.id)))
    rw [List.filter_map, List.filter_map]
    have hcomp : ∀ ff : Failures,
        ((fun g2 => decide (g2.id = g.id)) ∘ procUpd ff uid (getEntries s uid 1000) me
          (affectedGoalsOf s uid aid)) = (fun g2 => decide (g2.id = g.id)) := by
      intro ff
      funext x
      show decide ((procUpd ff uid (getEntries s uid 1000) me
        (affectedGoalsOf s uid aid) x).id = g.id) = decide (x.id = g.id)
      rw [procUpd_id]
    rw [hcomp f, hcomp noFailures]
    apply map_pointwise_mem
    intro x hx
    have hxid : x.id = g.id := of_decide_eq_true (List.mem_filter.mp hx).2
    exact procUpd_congr_f f uid (getEntries s uid 1000) me (affectedGoalsOf s uid aid) x
      (by rw [hxid]; exact hrw) (by rw [hxid]; exact huw)

/-- Witness for C9: with the write for goal 1 failing, goal 2 still ends in the state of the failure-free run. -/
theorem reval_error_isolation_witness :
    (c9Failures.completedGoalsReadFails = true →
      revalidateGoalsRun c9Failures c9Store 0 3 none = (c9Store, 0)) ∧
    (c9Failures.entriesReadFails = true →
      revalidateGoalsRun c9Failures c9Store 0 3 none = (c9Store, 0)) ∧
    (revalidateGoalsRun c9Failures c9Store 0 3 none).1.entries = c9Store.entries ∧
    (c9Failures.completedGoalsReadFails = false → c9Failures.entriesReadFails = false →
      ∀ g ∈ c9Store.goals, c9Failures.revertWriteFails g.id = false →
        c9Failures.updateWriteFails g.id = false →
        goalsById (revalidateGoalsRun c9Failures c9Store 0 3 none).1 g.id
          = goalsById (revalidateGoalsRun noFailures c9Store 0 3 none).1 g.id) :=
  reval_error_isolation c9Store 0 3 none c9Failures (by decide)

/-- Claim C10: createEntry without a recorded_at stores the wall clock creation time as recorded_at, and any completion the Detector issues for such an entry carries that creation time as completed_at. -/
theorem createEntry_defaults_recorded_at (now userId newId : Nat) (inp : CreateEntryInput)
    (ag : Option Goal) (h : inp.recorded_at = none) :
    (createEntry now userId newId inp).recorded_at = now ∧
    ∀ w ∈ createEntryOnSuccess ag (createEntry now userId newId inp),
      ∃ g, ag = some g ∧ w = GoalWrite.complete g.user_id g.id newId now := by
  have hrec : (createEntry now userId newId inp).recorded_at = now := by
    simp [createEntry, h]
  refine ⟨hrec, ?_⟩
  intro w hw
  cases ag with
  | none => simp [createEntryOnSuccess] at hw
  | some g =>
      refine ⟨g, rfl, ?_⟩
      simp only [createEntryOnSuccess] at hw
      by_cases h1 : g.start_weight ≤ 0
      · rw [if_pos h1] at hw
        simp at hw
      · rw [if_neg h1] at hw
        by_cases h2 : isGoalAchieved g (createEntry now userId newId inp).weight = true
        · rw [if_pos h2] at hw
          simp only [List.mem_singleton] at hw
          rw [hw, hrec]
          rfl
        · rw [if_neg h2] at hw
          simp at hw

/-- Witness for C10 at creation time 42 against the active goal from 200 to 180. -/
theorem createEntry_defaults_recorded_at_witness :
    (createEntry 42 0 7 c10Input).recorded_at = 42 ∧
    ∀ w ∈ createEntryOnSuccess (some c6Goal) (createEntry 42 0 7 c10Input),
      ∃ g, some c6Goal = some g ∧ w = GoalWrite.complete g.user_id g.id 7 42 :=
  createEntry_defaults_recorded_at 42 0 7 c10Input (some c6Goal) (by decide)
